import Mathlib

/-!
Verification development for the cvmfs_gateway lease arbitrator and
authenticated submission pipeline.

Part 1 embeds the Erlang lease server cvmfs_lease: the mnesia lease
table becomes an explicit list of records keyed by path, and each
gen_server request becomes a pure function from table to table together
with its reply.

Part 2 embeds the payloads handler cvmfs_payloads_handler.

Part 3 embeds the Go HMAC authorization middleware from
internal/gateway/frontend/authz.go, with the request reduced to the
fields the middleware inspects, and the recombining body reader.

External primitives that live outside the embedded sources (crypto
hashes, base64, the secret table, the payload sink) are abstracted as
function parameters; the two repository functions referenced but not
present in the sources (cvmfs_path_util:are_overlapping, CheckHMAC and
cvmfs_be:submit_payload) are modelled from the spec and marked as such.
-/

namespace CvmfsGateway

/-- A row of the mnesia lease table: record lease in cvmfs_lease.
The field time is the acquisition timestamp in milliseconds. -/
structure Lease where
  path : String
  u_id : String
  public : String
  secret : String
  time : Int
deriving DecidableEq, Repr

/-- The mnesia table lease (a set table keyed by path): a list of rows
in which the operations below keep paths unique. -/
abbrev LeaseTable := List Lease

/-- Split a character list on a separator character; splitting an empty
list yields one empty field, as the Go and Erlang splitters do. -/
def splitOnSep (sep : Char) : List Char → List Char → List (List Char)
  | [], acc => [acc.reverse]
  | c :: rest, acc =>
      if c = sep then acc.reverse :: splitOnSep sep rest []
      else splitOnSep sep rest (c :: acc)

/-- Modelled from the spec: cvmfs_path_util:are_overlapping is not under
src/; section 4.2 defines it as the pure predicate that holds exactly
when one path is a component-wise prefix of the other on slash-separated
components (so "/foo" overlaps "/foo/bar" but not "/foobar"); inputs are
assumed normalized as at insert time. -/
def are_overlapping (a b : String) : Bool :=
  let ca := splitOnSep '/' a.toList []
  let cb := splitOnSep '/' b.toList []
  ca.isPrefixOf cb || cb.isPrefixOf ca

/-- Reply of request_lease: ok, or busy with the remaining time of the
conflicting lease. -/
inductive NewLeaseResult
  | ok
  | busy (remaining : Int)
deriving DecidableEq, Repr

/-- Error component of a lease check reply. -/
inductive LeaseCheckError
  | invalid_lease
  | lease_expired
deriving DecidableEq, Repr

/-- p_write_row from cvmfs_lease: mnesia write of a fresh lease record
into a set table keyed by path — any existing row with the same path is
replaced. -/
def p_write_row (user path public secret : String) (now : Int)
    (st : LeaseTable) : LeaseTable :=
  st.filter (fun l => l.path ≠ path) ++
    [{ path := path, u_id := user, public := public, secret := secret, time := now }]

/-- The match specification of p_new_lease: all rows whose path field
equals the requested path. -/
def selectByPath (path : String) (st : LeaseTable) : List Lease :=
  st.filter (fun l => l.path == path)

/-- The match specification of p_check_lease and p_end_lease: all rows
whose public field equals the given public. -/
def selectByPublic (public : String) (st : LeaseTable) : List Lease :=
  st.filter (fun l => l.public == public)

/-- p_new_lease from cvmfs_lease: select the rows whose path equals the
requested path, filter those by are_overlapping, and when the head of the
result matches the record pattern binding path to the requested path,
decide busy or replace by the remaining time; otherwise write a fresh
row. -/
def p_new_lease (maxLeaseTime now : Int) (user path public secret : String)
    (st : LeaseTable) : NewLeaseResult × LeaseTable :=
  let selected := selectByPath path st
  let overlapping := selected.filter (fun l => are_overlapping l.path path)
  match overlapping with
  | L :: _ =>
      if L.path = path then
        let remaining := maxLeaseTime - (now - L.time)
        if remaining > 0 then
          (.busy remaining, st)
        else
          let st1 := st.filter (fun l => l.path ≠ path)
          (.ok, p_write_row user path public secret now st1)
      else
        (.ok, p_write_row user path public secret now st)
  | [] => (.ok, p_write_row user path public secret now st)

/-- p_check_lease from cvmfs_lease: look the lease up by public; reply
with the secret while unexpired, delete it by its path and reply
lease_expired once aged out, and reply invalid_lease when no row
matches. -/
def p_check_lease (maxLeaseTime now : Int) (public : String)
    (st : LeaseTable) : Except LeaseCheckError String × LeaseTable :=
  match selectByPublic public st with
  | [] => (.error .invalid_lease, st)
  | L :: _ =>
      let remaining := maxLeaseTime - (now - L.time)
      if remaining > 0 then
        (.ok L.secret, st)
      else
        (.error .lease_expired, st.filter (fun l => l.path ≠ L.path))

/-- p_end_lease from cvmfs_lease: select the paths of the rows whose
public matches, delete the first such path, and reply ok in every case;
the invariable Erlang reply ok is modelled as Unit. -/
def p_end_lease (public : String) (st : LeaseTable) : Unit × LeaseTable :=
  match (selectByPublic public st).map (fun l => l.path) with
  | p :: _ => ((), st.filter (fun l => l.path ≠ p))
  | [] => ((), st)

/-- p_get_leases from cvmfs_lease: fold over the table, consing each row
onto the accumulator. -/
def p_get_leases (st : LeaseTable) : List Lease :=
  st.foldl (fun acc l => l :: acc) []

/-- p_clear_leases from cvmfs_lease: clear the whole table. -/
def p_clear_leases (_st : LeaseTable) : LeaseTable := []

/-- One gen_server request of the lease server, tagged with the system
time in milliseconds observed inside its transaction. -/
inductive LeaseOp
  | newLease (now : Int) (user path public secret : String)
  | endLease (public : String)
  | checkLease (now : Int) (public : String)
  | clearLeases

/-- State reached after one lease-server request. -/
def applyOp (maxLeaseTime : Int) (st : LeaseTable) : LeaseOp → LeaseTable
  | .newLease now user path public secret =>
      (p_new_lease maxLeaseTime now user path public secret st).2
  | .endLease public => (p_end_lease public st).2
  | .checkLease now public => (p_check_lease maxLeaseTime now public st).2
  | .clearLeases => p_clear_leases st

/-- State reached after a sequence of lease-server requests. -/
def runOps (maxLeaseTime : Int) (st : LeaseTable) (ops : List LeaseOp) : LeaseTable :=
  ops.foldl (applyOp maxLeaseTime) st

/-- Reply of the backend submission call. -/
inductive BeSubmitResult
  | payload_added
  | error (reason : String)
deriving DecidableEq, Repr

/-- Modelled from the spec: cvmfs_be:submit_payload is not under src/.
Section 4.6: it checks the session token via the lease manager, surfacing
failures as invalid_lease and lease_expired, and otherwise forwards the
payload to the external PayloadSink, whose error set is passed through
verbatim; the sink is abstracted as a function of the lease context (the
secret returned by the check) and the payload bytes. -/
def cvmfs_be_submit_payload
    (checkLease : String → Except LeaseCheckError String)
    (payloadSink : String → List Nat → Except String Unit)
    (token : String) (payload : List Nat) : BeSubmitResult :=
  match checkLease token with
  | .ok secret =>
      match payloadSink secret payload with
      | .ok _ => .payload_added
      | .error r => .error r
  | .error .invalid_lease => .error "invalid_lease"
  | .error .lease_expired => .error "lease_expired"

/-- JSON reply of the payloads handler: status ok, or status error with a
reason. -/
inductive SubmitReply
  | ok
  | error (reason : String)
deriving DecidableEq, Repr

/-- p_submit_payload from cvmfs_payloads_handler: decode the declared
hash from base64, compare it with the SHA-1 of the payload, and on a
match forward to cvmfs_be:submit_payload; on mismatch reply with reason
invalid_payload_hash. The external crypto hash and base64 decode
primitives are abstracted as function parameters. -/
def p_submit_payload
    (sha1 : List Nat → List Nat) (base64decode : String → List Nat)
    (beSubmit : String → List Nat → BeSubmitResult)
    (token : String) (payload : List Nat) (hash : String) : SubmitReply :=
  let hashBinary := base64decode hash
  if sha1 payload = hashBinary then
    match beSubmit token payload with
    | .payload_added => .ok
    | .error r => .error r
  else
    .error "invalid_payload_hash"

/-- The fields of an HTTP request inspected by the authorization
middleware: method, URL path, the Authorization header, the token mux
variable (empty when the route carries none), the message-size header and
the body bytes. -/
structure GoRequest where
  method : String
  urlPath : String
  authHeader : String
  token : String
  messageSize : String
  body : List Nat
deriving DecidableEq, Repr

/-- The Go strings.Split of a string on a single space. -/
def goSplitSpace (s : String) : List String :=
  (splitOnSep ' ' s.toList []).map (fun cs => String.mk cs)

/-- Value of an all-digit character list, given an accumulator. -/
def digitsValueAux : List Char → Nat → Option Nat
  | [], acc => some acc
  | c :: rest, acc =>
      if c.isDigit then digitsValueAux rest (acc * 10 + (c.toNat - '0'.toNat))
      else none

/-- Value of a decimal digit string; none when empty or not all digits. -/
def digitsValue : List Char → Option Nat
  | [] => none
  | cs => digitsValueAux cs 0

/-- The Go strconv.Atoi: an optional sign followed by decimal digits;
errors (none) on an empty or malformed string and on values outside the
64-bit integer range. -/
def goAtoi (s : String) : Option Int :=
  match s.toList with
  | '+' :: rest => (digitsValue rest).bind (fun n =>
      if n ≤ 2 ^ 63 - 1 then some (Int.ofNat n) else none)
  | '-' :: rest => (digitsValue rest).bind (fun n =>
      if n ≤ 2 ^ 63 then some (-(Int.ofNat n : Int)) else none)
  | cs => (digitsValue cs).bind (fun n =>
      if n ≤ 2 ^ 63 - 1 then some (Int.ofNat n) else none)

/-- Bytes of a token string, as the Go byte-slice conversion; character
codes suffice for the ASCII tokens involved. -/
def strBytes (s : String) : List Nat := s.toList.map Char.toNat

/-- The Go strings.HasPrefix applied to a URL path and a route root. -/
def routeMatch (s pre : String) : Bool := pre.toList.isPrefixOf s.toList

/-- Modelled from the spec: CheckHMAC is not under src/. Section 4.5: the
gateway recomputes the HMAC-SHA1 of the signed material with the caller's
secret and compares it with the client HMAC in constant time; the
keyed-hash primitive is abstracted as a parameter taking the secret and
the message. -/
def CheckHMAC (hmacSha1 : List Nat → List Nat → List Nat)
    (message hmac secret : List Nat) : Bool :=
  hmacSha1 secret message == hmac

/-- Selection of the HMAC signed material by route, the middle part of
the middleware in authz.go: the result carries the signed material
together with the body handed to the downstream handler, or the HTTP
status of an early error reply. In this pure model reads from the body
cannot fail, so the 500 branch of the full-body read and the 400 branch
of a failed limited read do not arise. -/
def hmacInputSelect (apiRoot : String) (req : GoRequest) :
    Except Nat (List Nat × List Nat) :=
  if routeMatch req.urlPath (apiRoot ++ "/leases") then
    if req.token ≠ "" then .ok (strBytes req.token, req.body)
    else .ok (req.body, req.body)
  else if routeMatch req.urlPath (apiRoot ++ "/payloads") then
    if req.token ≠ "" then .ok (strBytes req.token, req.body)
    else
      match goAtoi req.messageSize with
      | none => .error 400
      | some n =>
          let msg := req.body.take n.toNat
          .ok (msg, msg ++ req.body.drop n.toNat)
  else
    .ok ([], req.body)

/-- Outcome of the middleware on one request: invoke the downstream
handler with the given effective body, reply invalid_hmac without
invoking it, or reply with an early HTTP error status. -/
inductive AuthzResult
  | next (body : List Nat)
  | invalidHmac
  | httpError (status : Nat)
deriving DecidableEq, Repr

/-- MakeAuthzMiddleware from authz.go: GET requests bypass authorization;
otherwise the Authorization header must split into exactly two
space-separated fields whose second part base64-decodes and whose first
part resolves to a non-empty secret, the signed material is selected by
route, and the request proceeds only when CheckHMAC accepts. -/
def MakeAuthzMiddleware (hmacSha1 : List Nat → List Nat → List Nat)
    (getSecret : String → List Nat) (base64decode : String → Option (List Nat))
    (apiRoot : String) (req : GoRequest) : AuthzResult :=
  if req.method = "GET" then .next req.body
  else
    match goSplitSpace req.authHeader with
    | [keyID, hmacB64] =>
        match base64decode hmacB64 with
        | none => .invalidHmac
        | some hmac =>
            let secret := getSecret keyID
            if secret.length = 0 then .invalidHmac
            else
              match hmacInputSelect apiRoot req with
              | .error status => .httpError status
              | .ok (input, newBody) =>
                  if CheckHMAC hmacSha1 input hmac secret then .next newBody
                  else .invalidHmac
    | _ => .invalidHmac

/-- The underlying request body stream handed to the middleware: its
not-yet-read bytes and whether Close has been called on it. -/
structure TailReader where
  data : List Nat
  closed : Bool
deriving DecidableEq, Repr

/-- Close on the underlying stream. -/
def TailReader.close (t : TailReader) : TailReader := { t with closed := true }

/-- recombineReadCloser from authz.go: combined is an io.MultiReader over
a bytes.Reader of the head and the tail — modelled by the unread part of
the head together with the tail — while original stays the tail stream
alone. -/
structure RecombineReadCloser where
  headRem : List Nat
  original : TailReader
deriving DecidableEq, Repr

/-- newRecombineReadCloser from authz.go. -/
def newRecombineReadCloser (head : List Nat) (tail : TailReader) :
    RecombineReadCloser :=
  { headRem := head, original := tail }

/-- One Read call with a buffer of size n: io.MultiReader serves bytes
from the head reader while it has any left, then from the tail. -/
def RecombineReadCloser.read (r : RecombineReadCloser) (n : Nat) :
    List Nat × RecombineReadCloser :=
  if r.headRem = [] then
    (r.original.data.take n,
      { r with original := { r.original with data := r.original.data.drop n } })
  else
    (r.headRem.take n, { r with headRem := r.headRem.drop n })

/-- Close from authz.go: delegates to Close of the original stream. -/
def RecombineReadCloser.close (r : RecombineReadCloser) : RecombineReadCloser :=
  { r with original := r.original.close }

/-- Repeated Read calls with buffers of size n, stopping at the first
empty chunk; the fuel bounds the number of calls. -/
def readAllAux (n : Nat) : Nat → RecombineReadCloser → List Nat
  | 0, _ => []
  | fuel + 1, r =>
      match r.read n with
      | (chunk, r1) => if chunk = [] then [] else chunk ++ readAllAux n fuel r1

/-- Reading the recombined body to completion, as ioutil.ReadAll does
against the combined reader. -/
def RecombineReadCloser.readAll (r : RecombineReadCloser) (n : Nat) : List Nat :=
  readAllAux n (r.headRem.length + r.original.data.length + 1) r

end CvmfsGateway

namespace CvmfsGateway

lemma p_check_lease_select_nil (maxT now : Int) (pub : String) (st : LeaseTable)
    (h : selectByPublic pub st = []) :
    p_check_lease maxT now pub st = (.error .invalid_lease, st) := by
  simp [p_check_lease, h]

lemma p_check_lease_select_cons_live (maxT now : Int) (pub : String) (st : LeaseTable)
    (L : Lease) (rest : List Lease) (h : selectByPublic pub st = L :: rest)
    (hlive : now - L.time < maxT) :
    p_check_lease maxT now pub st = (.ok L.secret, st) := by
  have hpos : maxT - (now - L.time) > 0 := by omega
  simp [p_check_lease, h, hpos]

lemma p_check_lease_select_cons_expired (maxT now : Int) (pub : String) (st : LeaseTable)
    (L : Lease) (rest : List Lease) (h : selectByPublic pub st = L :: rest)
    (hexp : maxT ≤ now - L.time) :
    p_check_lease maxT now pub st =
      (.error .lease_expired, st.filter (fun l => l.path ≠ L.path)) := by
  have hneg : ¬ (maxT - (now - L.time) > 0) := by omega
  simp [p_check_lease, h, hneg]

lemma p_end_lease_select_nil (pub : String) (st : LeaseTable)
    (h : selectByPublic pub st = []) :
    p_end_lease pub st = ((), st) := by
  simp [p_end_lease, h]

lemma p_end_lease_select_cons (pub : String) (st : LeaseTable)
    (L : Lease) (rest : List Lease) (h : selectByPublic pub st = L :: rest) :
    p_end_lease pub st = ((), st.filter (fun l => l.path ≠ L.path)) := by
  simp [p_end_lease, h]

lemma select_filter_path_self (pub : String) (st : LeaseTable) (L : Lease)
    (h : selectByPublic pub st = [L]) :
    selectByPublic pub (st.filter (fun l => l.path ≠ L.path)) = [] := by
  rw [List.eq_nil_iff_forall_not_mem]
  intro x hx
  rw [selectByPublic, List.mem_filter] at hx
  obtain ⟨hx1, hx2⟩ := hx
  rw [List.mem_filter] at hx1
  obtain ⟨hxst, hxpath⟩ := hx1
  have hxL : x = L := by
    have hmem : x ∈ selectByPublic pub st := by
      rw [selectByPublic, List.mem_filter]
      exact ⟨hxst, hx2⟩
    rw [h] at hmem
    simpa using hmem
  rw [hxL] at hxpath
  simp at hxpath

lemma p_new_lease_no_exact (maxT now : Int) (u p pub s : String) (st : LeaseTable)
    (h : selectByPath p st = []) :
    p_new_lease maxT now u p pub s st = (.ok, p_write_row u p pub s now st) := by
  simp only [p_new_lease, h, List.filter_nil]

lemma publics_filter_sublist (f : Lease → Bool) (st : LeaseTable) :
    List.Sublist ((st.filter f).map Lease.public) (st.map Lease.public) :=
  (List.filter_sublist st).map Lease.public

lemma nodup_publics_filter (f : Lease → Bool) (st : LeaseTable)
    (h : (st.map Lease.public).Nodup) :
    ((st.filter f).map Lease.public).Nodup :=
  h.sublist (publics_filter_sublist f st)

lemma not_mem_publics_filter (f : Lease → Bool) (st : LeaseTable) (pub : String)
    (h : pub ∉ st.map Lease.public) :
    pub ∉ (st.filter f).map Lease.public :=
  fun hmem => h ((publics_filter_sublist f st).subset hmem)

lemma nodup_publics_write_row (user path pub secret : String) (now : Int)
    (st : LeaseTable)
    (h1 : (st.map Lease.public).Nodup) (h2 : pub ∉ st.map Lease.public) :
    ((p_write_row user path pub secret now st).map Lease.public).Nodup := by
  rw [p_write_row, List.map_append, List.nodup_append]
  refine ⟨nodup_publics_filter _ st h1, by simp, ?_⟩
  intro a ha hb
  simp only [List.map_cons, List.map_nil, List.mem_singleton] at hb
  rw [hb] at ha
  exact not_mem_publics_filter _ st pub h2 ha

lemma nodup_publics_new_lease (maxT now : Int) (u p pub s : String)
    (st : LeaseTable)
    (h1 : (st.map Lease.public).Nodup) (h2 : pub ∉ st.map Lease.public) :
    ((p_new_lease maxT now u p pub s st).2.map Lease.public).Nodup := by
  simp only [p_new_lease]
  split
  · split
    · split
      · exact h1
      · exact nodup_publics_write_row u p pub s now _
          (nodup_publics_filter _ st h1) (not_mem_publics_filter _ st pub h2)
    · exact nodup_publics_write_row u p pub s now st h1 h2
  · exact nodup_publics_write_row u p pub s now st h1 h2

lemma readAllAux_tail (n : Nat) (hn : 1 ≤ n) :
    ∀ fuel (data : List Nat) (c : Bool), data.length < fuel →
      readAllAux n fuel { headRem := [], original := { data := data, closed := c } } = data := by
  intro fuel
  induction fuel with
  | zero => intro data c h; omega
  | succ fuel ih =>
      intro data c h
      rcases data with _ | ⟨x, xs⟩
      · simp [readAllAux, RecombineReadCloser.read]
      · have hstep : RecombineReadCloser.read
            { headRem := [], original := { data := x :: xs, closed := c } } n
            = ((x :: xs).take n,
               { headRem := [], original := { data := (x :: xs).drop n, closed := c } }) := by
          simp [RecombineReadCloser.read]
        have hchunk : ¬ ((x :: xs).take n = []) := by
          rcases n with _ | m
          · omega
          · simp [List.take]
        rw [readAllAux, hstep]
        simp only [if_neg hchunk]
        have hlen : ((x :: xs).drop n).length < fuel := by
          have hd := List.length_drop n (x :: xs)
          simp only [List.length_cons] at h hd
          omega
        rw [ih ((x :: xs).drop n) c hlen]
        exact List.take_append_drop n (x :: xs)

lemma readAllAux_full (n : Nat) (hn : 1 ≤ n) :
    ∀ fuel (head : List Nat) (t : TailReader),
      head.length + t.data.length < fuel →
      readAllAux n fuel { headRem := head, original := t } = head ++ t.data := by
  intro fuel
  induction fuel with
  | zero => intro head t h; omega
  | succ fuel ih =>
      intro head t h
      rcases head with _ | ⟨x, xs⟩
      · rcases t with ⟨data, c⟩
        simp only [List.nil_append]
        exact readAllAux_tail n hn (fuel + 1) data c (by simpa using h)
      · have hstep : RecombineReadCloser.read
            { headRem := x :: xs, original := t } n
            = ((x :: xs).take n, { headRem := (x :: xs).drop n, original := t }) := by
          simp [RecombineReadCloser.read]
        have hchunk : ¬ ((x :: xs).take n = []) := by
          rcases n with _ | m
          · omega
          · simp [List.take]
        rw [readAllAux, hstep]
        simp only [if_neg hchunk]
        have hlen : ((x :: xs).drop n).length + t.data.length < fuel := by
          have hd := List.length_drop n (x :: xs)
          simp only [List.length_cons] at h hd
          omega
        rw [ih ((x :: xs).drop n) t hlen]
        rw [← List.append_assoc]
        rw [List.take_append_drop n (x :: xs)]

end CvmfsGateway

namespace CvmfsGateway

/-- C1: the spec claims that for any sequence of Acquire and Release
operations no two live leases ever have prefix-overlapping paths. The
code violates this: its match specification selects only rows whose path
is exactly the requested path, so the overlap filter never sees a
different overlapping lease. After acquiring "/repo/a" and then
"/repo/a/b" (both granted), the table holds two live leases with
prefix-overlapping paths. -/
theorem new_lease_breaks_overlap_invariant :
    ∃ l1 ∈ runOps 100 []
        [.newLease 0 "alice" "/repo/a" "p1" "s1",
         .newLease 1 "bob" "/repo/a/b" "p2" "s2"],
      ∃ l2 ∈ runOps 100 []
        [.newLease 0 "alice" "/repo/a" "p1" "s1",
         .newLease 1 "bob" "/repo/a/b" "p2" "s2"],
      l1.path ≠ l2.path ∧ are_overlapping l1.path l2.path = true := by
  decide

/-- C2: the spec claims that acquiring any path that prefix-overlaps a
live, unexpired lease is answered busy with the remaining time. The code
violates this for overlapping-but-unequal paths: with a live lease on
"/repo/a" acquired at time 0 and maximum lease time 100, acquiring
"/repo/a/b" at time 1 is granted (reply ok) even though the paths overlap
and the existing lease still has 99 remaining. -/
theorem new_lease_grants_overlapping_subpath :
    (p_new_lease 100 1 "bob" "/repo/a/b" "p2" "s2"
        [{ path := "/repo/a", u_id := "alice", public := "p1",
           secret := "s1", time := 0 }]).1 = .ok
    ∧ are_overlapping "/repo/a" "/repo/a/b" = true
    ∧ (100 : Int) - (1 - 0) > 0 := by
  decide

/-- C3 counterexample: the claim says no two live leases ever share the
same public and that inserting a colliding public fails. Acquiring "/a"
and then "/b" with the same public "pub" is granted both times, and the
resulting table carries two live leases with the same public. -/
theorem public_collision_insert_succeeds :
    (p_new_lease 100 1 "u2" "/b" "pub" "s2"
        (p_new_lease 100 0 "u1" "/a" "pub" "s1" []).2).1 = .ok ∧
    ¬ (((p_new_lease 100 1 "u2" "/b" "pub" "s2"
        (p_new_lease 100 0 "u1" "/a" "pub" "s1" []).2).2.map Lease.public).Nodup) := by
  decide

/-- C3 amended: the store never rejects a colliding public — writing a
row whose path is fresh succeeds whatever its public — and the public
identifier stays unique across live leases only as long as every granted
lease is created with a public that is not already present: every
operation preserves distinctness of the publics under that freshness
assumption. -/
theorem public_uniqueness_requires_fresh_publics
    (maxT now : Int) (u p pub s pub' : String) (st : LeaseTable) :
    (selectByPath p st = [] →
        (p_new_lease maxT now u p pub s st).1 = .ok ∧
        { path := p, u_id := u, public := pub, secret := s, time := now }
          ∈ (p_new_lease maxT now u p pub s st).2) ∧
    ((st.map Lease.public).Nodup → pub ∉ st.map Lease.public →
        ((p_new_lease maxT now u p pub s st).2.map Lease.public).Nodup) ∧
    ((st.map Lease.public).Nodup →
        ((p_end_lease pub' st).2.map Lease.public).Nodup) ∧
    ((st.map Lease.public).Nodup →
        ((p_check_lease maxT now pub' st).2.map Lease.public).Nodup) := by
  refine ⟨?_, ?_, ?_, ?_⟩
  · intro h
    rw [p_new_lease_no_exact maxT now u p pub s st h]
    exact ⟨rfl, by simp [p_write_row]⟩
  · exact nodup_publics_new_lease maxT now u p pub s st
  · intro h1
    rcases hsel : selectByPublic pub' st with _ | ⟨L, rest⟩
    · rw [p_end_lease_select_nil pub' st hsel]
      exact h1
    · rw [p_end_lease_select_cons pub' st L rest hsel]
      exact nodup_publics_filter _ st h1
  · intro h1
    rcases hsel : selectByPublic pub' st with _ | ⟨L, rest⟩
    · rw [p_check_lease_select_nil maxT now pub' st hsel]
      exact h1
    · by_cases hlive : now - L.time < maxT
      · rw [p_check_lease_select_cons_live maxT now pub' st L rest hsel hlive]
        exact h1
      · rw [p_check_lease_select_cons_expired maxT now pub' st L rest hsel (by omega)]
        exact nodup_publics_filter _ st h1

/-- Witness for C3 amended at concrete inputs: inserting public "pub"
into the empty table succeeds and the lease lands in the table, and
the freshness-preservation conjunct holds on a one-row table. -/
theorem public_uniqueness_requires_fresh_publics_witness :
    ((p_new_lease 100 0 "u" "/a" "pub" "s" []).1 = .ok ∧
      { path := "/a", u_id := "u", public := "pub", secret := "s", time := 0 }
        ∈ (p_new_lease 100 0 "u" "/a" "pub" "s" []).2) ∧
    (((p_new_lease 100 1 "v" "/b" "q" "t"
        [{ path := "/a", u_id := "u", public := "pub", secret := "s", time := 0 }]).2.map
          Lease.public).Nodup) :=
  ⟨(public_uniqueness_requires_fresh_publics 100 0 "u" "/a" "pub" "s" "x" []).1 rfl,
   (public_uniqueness_requires_fresh_publics 100 1 "v" "/b" "q" "t" "x"
      [{ path := "/a", u_id := "u", public := "pub", secret := "s", time := 0 }]).2.1
     (by decide) (by decide)⟩

/-- C4: for a lease identified by its public, p_check_lease replies ok
with the lease secret exactly while now minus the acquisition time is
below the maximum lease time; once aged out it deletes the lease in the
same transaction and replies lease_expired; when no lease matches it
replies invalid_lease; and after a successful release of that public (in
a table where at most one row carries it) a check replies
invalid_lease. -/
theorem check_lease_validity (maxLeaseTime now : Int) (pub : String) (st : LeaseTable) :
    (selectByPublic pub st = [] →
        p_check_lease maxLeaseTime now pub st = (.error .invalid_lease, st)) ∧
    (∀ L rest, selectByPublic pub st = L :: rest →
        (now - L.time < maxLeaseTime →
            p_check_lease maxLeaseTime now pub st = (.ok L.secret, st)) ∧
        (maxLeaseTime ≤ now - L.time →
            p_check_lease maxLeaseTime now pub st =
              (.error .lease_expired, st.filter (fun x => x.path ≠ L.path)))) ∧
    ((selectByPublic pub st).length ≤ 1 →
        (p_check_lease maxLeaseTime now pub (p_end_lease pub st).2).1
          = .error .invalid_lease) := by
  refine ⟨?_, ?_, ?_⟩
  · exact p_check_lease_select_nil maxLeaseTime now pub st
  · intro L rest h
    exact ⟨p_check_lease_select_cons_live maxLeaseTime now pub st L rest h,
           p_check_lease_select_cons_expired maxLeaseTime now pub st L rest h⟩
  · intro hlen
    rcases hsel : selectByPublic pub st with _ | ⟨L, rest⟩
    · rw [p_end_lease_select_nil pub st hsel]
      rw [p_check_lease_select_nil maxLeaseTime now pub st hsel]
    · rcases rest with _ | ⟨y, ys⟩
      · rw [p_end_lease_select_cons pub st L [] hsel]
        rw [p_check_lease_select_nil maxLeaseTime now pub _
              (select_filter_path_self pub st L hsel)]
      · exfalso
        rw [hsel] at hlen
        simp at hlen

/-- Witness for C4 at concrete inputs: an unexpired lease checks ok with
its secret, an aged-out one is deleted with reply lease_expired, and a
check after a release replies invalid_lease. -/
theorem check_lease_validity_witness :
    p_check_lease 100 5 "pub"
        [{ path := "/a", u_id := "u", public := "pub", secret := "s", time := 0 }]
      = (.ok "s",
         [{ path := "/a", u_id := "u", public := "pub", secret := "s", time := 0 }]) ∧
    p_check_lease 100 200 "pub"
        [{ path := "/a", u_id := "u", public := "pub", secret := "s", time := 0 }]
      = (.error .lease_expired, []) ∧
    (p_check_lease 100 5 "pub"
        (p_end_lease "pub"
          [{ path := "/a", u_id := "u", public := "pub", secret := "s", time := 0 }]).2).1
      = .error .invalid_lease :=
  ⟨((check_lease_validity 100 5 "pub" _).2.1
      { path := "/a", u_id := "u", public := "pub", secret := "s", time := 0 } []
      (by decide)).1 (by decide),
   by
    have h := ((check_lease_validity 100 200 "pub"
        [{ path := "/a", u_id := "u", public := "pub", secret := "s", time := 0 }]).2.1
        { path := "/a", u_id := "u", public := "pub", secret := "s", time := 0 } []
        (by decide)).2 (by decide)
    simpa using h,
   (check_lease_validity 100 5 "pub"
      [{ path := "/a", u_id := "u", public := "pub", secret := "s", time := 0 }]).2.2
     (by decide)⟩

/-- C9: ending a lease always replies ok; when no lease carries the given
public the table is left unchanged (idempotent drop), and in a table
where at most one row carries the public, releasing twice equals
releasing once. -/
theorem end_lease_idempotent (pub : String) (st : LeaseTable) :
    (selectByPublic pub st = [] → p_end_lease pub st = ((), st)) ∧
    ((selectByPublic pub st).length ≤ 1 →
        p_end_lease pub (p_end_lease pub st).2 = p_end_lease pub st) := by
  constructor
  · exact p_end_lease_select_nil pub st
  · intro hlen
    rcases hsel : selectByPublic pub st with _ | ⟨L, rest⟩
    · rw [p_end_lease_select_nil pub st hsel]
      exact p_end_lease_select_nil pub st hsel
    · rcases rest with _ | ⟨y, ys⟩
      · rw [p_end_lease_select_cons pub st L [] hsel]
        rw [p_end_lease_select_nil pub _ (select_filter_path_self pub st L hsel)]
      · exfalso
        rw [hsel] at hlen
        simp at hlen

/-- Witness for C9 at concrete inputs: releasing an absent public leaves
the table unchanged, and a double release equals a single release. -/
theorem end_lease_idempotent_witness :
    p_end_lease "none"
        [{ path := "/a", u_id := "u", public := "pub", secret := "s", time := 0 }]
      = ((), [{ path := "/a", u_id := "u", public := "pub", secret := "s", time := 0 }]) ∧
    p_end_lease "pub"
        (p_end_lease "pub"
          [{ path := "/a", u_id := "u", public := "pub", secret := "s", time := 0 }]).2
      = p_end_lease "pub"
          [{ path := "/a", u_id := "u", public := "pub", secret := "s", time := 0 }] :=
  ⟨(end_lease_idempotent "none"
      [{ path := "/a", u_id := "u", public := "pub", secret := "s", time := 0 }]).1
      (by decide),
   (end_lease_idempotent "pub"
      [{ path := "/a", u_id := "u", public := "pub", secret := "s", time := 0 }]).2
      (by decide)⟩

/-- C5: the payloads handler replies ok exactly when the lease check
succeeds, the SHA-1 of the payload equals the base64-decoded declared
hash, and the payload sink accepts; a hash mismatch is reported with
reason invalid_payload_hash. -/
theorem submit_payload_ok_iff (sha1 : List Nat → List Nat)
    (base64decode : String → List Nat)
    (checkL : String → Except LeaseCheckError String)
    (sink : String → List Nat → Except String Unit)
    (token : String) (payload : List Nat) (hash : String) :
    (p_submit_payload sha1 base64decode (cvmfs_be_submit_payload checkL sink)
        token payload hash = .ok
      ↔ (∃ s, checkL token = .ok s ∧ sink s payload = .ok ()) ∧
          sha1 payload = base64decode hash) ∧
    (sha1 payload ≠ base64decode hash →
        p_submit_payload sha1 base64decode (cvmfs_be_submit_payload checkL sink)
          token payload hash = .error "invalid_payload_hash") := by
  constructor
  · by_cases hh : sha1 payload = base64decode hash
    · rcases hc : checkL token with e | s
      · rcases e <;> simp [p_submit_payload, cvmfs_be_submit_payload, hc, hh]
      · rcases hs : sink s payload with r | u
        · simp [p_submit_payload, cvmfs_be_submit_payload, hc, hs, hh]
        · simp [p_submit_payload, cvmfs_be_submit_payload, hc, hs, hh]
    · simp [p_submit_payload, hh]
  · intro hne
    simp [p_submit_payload, hne]

/-- Witness for C5 at concrete inputs: with an accepting check and sink a
matching hash is accepted, and a mismatching hash is refused with reason
invalid_payload_hash. -/
theorem submit_payload_ok_iff_witness :
    p_submit_payload (fun l => l) (fun _ => [1, 2])
        (cvmfs_be_submit_payload (fun _ => .ok "s") (fun _ _ => .ok ()))
        "t" [1, 2] "h" = .ok ∧
    p_submit_payload (fun l => l) (fun _ => [1, 2])
        (cvmfs_be_submit_payload (fun _ => .ok "s") (fun _ _ => .ok ()))
        "t" [3] "h" = .error "invalid_payload_hash" :=
  ⟨(submit_payload_ok_iff (fun l => l) (fun _ => [1, 2]) (fun _ => .ok "s")
      (fun _ _ => .ok ()) "t" [1, 2] "h").1.mpr ⟨⟨"s", rfl, rfl⟩, rfl⟩,
   (submit_payload_ok_iff (fun l => l) (fun _ => [1, 2]) (fun _ => .ok "s")
      (fun _ _ => .ok ()) "t" [3] "h").2 (by decide)⟩

end CvmfsGateway

namespace CvmfsGateway

/-- C6: the signed material is selected by route — the token path segment
bytes for lease commit/drop and token-bearing payload submission, the
full request body for a new lease request, and for a legacy payload
submission the first N body bytes where N is the integer value of the
message-size header; a missing or non-integer message-size header
produces an HTTP 400 reply from the middleware. -/
theorem signed_material_by_route (hmacSha1 : List Nat → List Nat → List Nat)
    (getSecret : String → List Nat) (base64decode : String → Option (List Nat))
    (apiRoot : String) (req : GoRequest) :
    (routeMatch req.urlPath (apiRoot ++ "/leases") = true →
        (req.token ≠ "" →
            hmacInputSelect apiRoot req = .ok (strBytes req.token, req.body)) ∧
        (req.token = "" →
            hmacInputSelect apiRoot req = .ok (req.body, req.body))) ∧
    (routeMatch req.urlPath (apiRoot ++ "/leases") = false →
        routeMatch req.urlPath (apiRoot ++ "/payloads") = true →
        (req.token ≠ "" →
            hmacInputSelect apiRoot req = .ok (strBytes req.token, req.body)) ∧
        (req.token = "" →
            (∀ n, goAtoi req.messageSize = some n →
                hmacInputSelect apiRoot req
                  = .ok (req.body.take n.toNat,
                         req.body.take n.toNat ++ req.body.drop n.toNat)) ∧
            (goAtoi req.messageSize = none →
                hmacInputSelect apiRoot req = .error 400 ∧
                (req.method ≠ "GET" →
                    ∀ keyID hmacB64 hmac,
                      goSplitSpace req.authHeader = [keyID, hmacB64] →
                      base64decode hmacB64 = some hmac →
                      (getSecret keyID).length ≠ 0 →
                      MakeAuthzMiddleware hmacSha1 getSecret base64decode apiRoot req
                        = .httpError 400)))) := by
  constructor
  · intro hl
    constructor
    · intro ht
      simp [hmacInputSelect, hl, ht]
    · intro ht
      simp [hmacInputSelect, hl, ht]
  · intro hl hp
    constructor
    · intro ht
      simp [hmacInputSelect, hl, hp, ht]
    · intro ht
      constructor
      · intro n hn
        simp [hmacInputSelect, hl, hp, ht, hn]
      · intro hn
        have h400 : hmacInputSelect apiRoot req = .error 400 := by
          simp [hmacInputSelect, hl, hp, ht, hn]
        refine ⟨h400, ?_⟩
        intro hm keyID hmacB64 hmac hsp hb64 hsec
        simp [MakeAuthzMiddleware, hm, hsp, hb64, hsec, h400]

/-- Witness for C6 at concrete inputs: on a new-lease route the body is
the signed material, on a token route the token bytes are, a legacy
submission signs the first two body bytes, and a legacy submission with a
non-integer message-size header replies HTTP 400. -/
theorem signed_material_by_route_witness :
    hmacInputSelect "/api/v1"
        { method := "POST", urlPath := "/api/v1/leases", authHeader := "k h",
          token := "", messageSize := "", body := [1, 2, 3] }
      = .ok ([1, 2, 3], [1, 2, 3]) ∧
    hmacInputSelect "/api/v1"
        { method := "POST", urlPath := "/api/v1/payloads/tok", authHeader := "k h",
          token := "tok", messageSize := "", body := [1, 2, 3] }
      = .ok (strBytes "tok", [1, 2, 3]) ∧
    hmacInputSelect "/api/v1"
        { method := "POST", urlPath := "/api/v1/payloads", authHeader := "k h",
          token := "", messageSize := "2", body := [1, 2, 3] }
      = .ok ([1, 2], [1, 2] ++ [3]) ∧
    MakeAuthzMiddleware (fun _ _ => [0]) (fun _ => [1]) (fun _ => some [2]) "/api/v1"
        { method := "POST", urlPath := "/api/v1/payloads", authHeader := "key abc",
          token := "", messageSize := "x", body := [1, 2, 3] }
      = .httpError 400 :=
  ⟨((signed_material_by_route (fun _ _ => [0]) (fun _ => [1]) (fun _ => some [2])
        "/api/v1" _).1 (by decide)).2 rfl,
   ((signed_material_by_route (fun _ _ => [0]) (fun _ => [1]) (fun _ => some [2])
        "/api/v1" _).2 (by decide) (by decide)).1 (by decide),
   by
    have h := (((signed_material_by_route (fun _ _ => [0]) (fun _ => [1])
        (fun _ => some [2]) "/api/v1"
        { method := "POST", urlPath := "/api/v1/payloads", authHeader := "k h",
          token := "", messageSize := "2", body := [1, 2, 3] }).2
        (by decide) (by decide)).2 rfl).1 2 (by decide)
    simpa using h,
   ((((signed_material_by_route (fun _ _ => [0]) (fun _ => [1]) (fun _ => some [2])
        "/api/v1"
        { method := "POST", urlPath := "/api/v1/payloads", authHeader := "key abc",
          token := "", messageSize := "x", body := [1, 2, 3] }).2
        (by decide) (by decide)).2 rfl).2 (by decide)).2 (by decide)
     "key" "abc" [2] (by decide) rfl (by decide)⟩

/-- C7: GET requests bypass HMAC verification and reach the downstream
handler unchanged; for any other method, an Authorization header that
does not split into exactly two space-separated fields, a second field
that does not base64-decode, or a first field unknown to the secret
lookup each produce the invalid_hmac error reply and the downstream
handler is never invoked. -/
theorem authz_gate_behaviour (hmacSha1 : List Nat → List Nat → List Nat)
    (getSecret : String → List Nat) (base64decode : String → Option (List Nat))
    (apiRoot : String) (req : GoRequest) :
    (req.method = "GET" →
        MakeAuthzMiddleware hmacSha1 getSecret base64decode apiRoot req
          = .next req.body) ∧
    (req.method ≠ "GET" →
        ((goSplitSpace req.authHeader).length ≠ 2 →
            MakeAuthzMiddleware hmacSha1 getSecret base64decode apiRoot req
              = .invalidHmac) ∧
        (∀ keyID hmacB64, goSplitSpace req.authHeader = [keyID, hmacB64] →
            (base64decode hmacB64 = none →
                MakeAuthzMiddleware hmacSha1 getSecret base64decode apiRoot req
                  = .invalidHmac) ∧
            ((getSecret keyID).length = 0 →
                MakeAuthzMiddleware hmacSha1 getSecret base64decode apiRoot req
                  = .invalidHmac))) := by
  constructor
  · intro h
    simp [MakeAuthzMiddleware, h]
  · intro hm
    constructor
    · intro hlen
      rcases hsp : goSplitSpace req.authHeader with _ | ⟨a, _ | ⟨b, _ | ⟨c, rest⟩⟩⟩
      · simp [MakeAuthzMiddleware, hm, hsp]
      · simp [MakeAuthzMiddleware, hm, hsp]
      · exfalso
        rw [hsp] at hlen
        simp at hlen
      · simp [MakeAuthzMiddleware, hm, hsp]
    · intro keyID hmacB64 hsp
      constructor
      · intro hb
        simp [MakeAuthzMiddleware, hm, hsp, hb]
      · intro hsec
        rcases hb : base64decode hmacB64 with _ | hmac
        · simp [MakeAuthzMiddleware, hm, hsp, hb]
        · simp [MakeAuthzMiddleware, hm, hsp, hb, hsec]

/-- Witness for C7 at concrete inputs: a GET request passes straight
through, and a POST whose Authorization header has three fields is
refused with invalid_hmac. -/
theorem authz_gate_behaviour_witness :
    MakeAuthzMiddleware (fun _ _ => [0]) (fun _ => [1]) (fun _ => some [2]) "/api/v1"
        { method := "GET", urlPath := "/api/v1/repos", authHeader := "",
          token := "", messageSize := "", body := [9] }
      = .next [9] ∧
    MakeAuthzMiddleware (fun _ _ => [0]) (fun _ => [1]) (fun _ => some [2]) "/api/v1"
        { method := "POST", urlPath := "/api/v1/leases", authHeader := "a b c",
          token := "", messageSize := "", body := [9] }
      = .invalidHmac :=
  ⟨(authz_gate_behaviour (fun _ _ => [0]) (fun _ => [1]) (fun _ => some [2]) "/api/v1"
      { method := "GET", urlPath := "/api/v1/repos", authHeader := "",
        token := "", messageSize := "", body := [9] }).1 rfl,
   ((authz_gate_behaviour (fun _ _ => [0]) (fun _ => [1]) (fun _ => some [2]) "/api/v1"
      { method := "POST", urlPath := "/api/v1/leases", authHeader := "a b c",
        token := "", messageSize := "", body := [9] }).2 (by decide)).1 (by decide)⟩

/-- C10: a mutating request whose URL path is under neither the leases
nor the payloads API prefix leaves the signed material empty, so with a
well-formed Authorization header and a known key it reaches the
downstream handler exactly when the supplied HMAC is the keyed hash of
the empty byte string, and is otherwise answered invalid_hmac — never
rejected outright. -/
theorem unrouted_requests_use_empty_material
    (hmacSha1 : List Nat → List Nat → List Nat)
    (getSecret : String → List Nat) (base64decode : String → Option (List Nat))
    (apiRoot : String) (req : GoRequest)
    (keyID hmacB64 : String) (hmac : List Nat)
    (hm : req.method ≠ "GET")
    (hsp : goSplitSpace req.authHeader = [keyID, hmacB64])
    (hb64 : base64decode hmacB64 = some hmac)
    (hsec : (getSecret keyID).length ≠ 0)
    (hl : routeMatch req.urlPath (apiRoot ++ "/leases") = false)
    (hp : routeMatch req.urlPath (apiRoot ++ "/payloads") = false) :
    (MakeAuthzMiddleware hmacSha1 getSecret base64decode apiRoot req
        = .next req.body
      ↔ hmacSha1 (getSecret keyID) [] = hmac) ∧
    (hmacSha1 (getSecret keyID) [] ≠ hmac →
        MakeAuthzMiddleware hmacSha1 getSecret base64decode apiRoot req
          = .invalidHmac) := by
  have hsel : hmacInputSelect apiRoot req = .ok ([], req.body) := by
    simp [hmacInputSelect, hl, hp]
  by_cases hchk : hmacSha1 (getSecret keyID) [] = hmac
  · constructor
    · simp [MakeAuthzMiddleware, hm, hsp, hb64, hsec, hsel, CheckHMAC, hchk]
    · intro hne
      exact absurd hchk hne
  · constructor
    · simp [MakeAuthzMiddleware, hm, hsp, hb64, hsec, hsel, CheckHMAC, hchk]
    · intro _
      simp [MakeAuthzMiddleware, hm, hsp, hb64, hsec, hsel, CheckHMAC, hchk]

/-- Witness for C10 at concrete inputs: a POST to a path outside both API
prefixes passes with an HMAC of the empty byte string and is refused with
invalid_hmac under any other HMAC value. -/
theorem unrouted_requests_use_empty_material_witness :
    MakeAuthzMiddleware (fun s m => s ++ m) (fun _ => [7]) (fun _ => some [7])
        "/api/v1"
        { method := "POST", urlPath := "/other", authHeader := "k h",
          token := "", messageSize := "", body := [5] }
      = .next [5] ∧
    MakeAuthzMiddleware (fun s m => s ++ m) (fun _ => [7]) (fun _ => some [8])
        "/api/v1"
        { method := "POST", urlPath := "/other", authHeader := "k h",
          token := "", messageSize := "", body := [5] }
      = .invalidHmac :=
  ⟨(unrouted_requests_use_empty_material (fun s m => s ++ m) (fun _ => [7])
      (fun _ => some [7]) "/api/v1"
      { method := "POST", urlPath := "/other", authHeader := "k h",
        token := "", messageSize := "", body := [5] }
      "k" "h" [7] (by decide) (by decide) rfl (by decide) (by decide) (by decide)).1.mpr
      (by decide),
   (unrouted_requests_use_empty_material (fun s m => s ++ m) (fun _ => [7])
      (fun _ => some [8]) "/api/v1"
      { method := "POST", urlPath := "/other", authHeader := "k h",
        token := "", messageSize := "", body := [5] }
      "k" "h" [8] (by decide) (by decide) rfl (by decide) (by decide) (by decide)).2
      (by decide)⟩

/-- C8: the recombined body yields exactly the verified head followed by
the unread tail — reading it to completion with any positive buffer size
returns the head concatenated with the tail contents — and closing it
closes the underlying tail stream. -/
theorem recombine_body_intact_and_closed (head : List Nat) (tail : TailReader)
    (n : Nat) (hn : 1 ≤ n) :
    (newRecombineReadCloser head tail).readAll n = head ++ tail.data ∧
    ((newRecombineReadCloser head tail).close).original.closed = true := by
  constructor
  · exact readAllAux_full n hn (head.length + tail.data.length + 1) head tail (by omega)
  · rfl

/-- Witness for C8 at concrete inputs: a three-byte head recombined with
a two-byte tail reads back as the five original bytes, and Close marks
the tail stream closed. -/
theorem recombine_body_intact_and_closed_witness :
    (newRecombineReadCloser [1, 2, 3] { data := [4, 5], closed := false }).readAll 2
      = [1, 2, 3] ++ [4, 5] ∧
    ((newRecombineReadCloser [1, 2, 3]
        { data := [4, 5], closed := false }).close).original.closed = true :=
  recombine_body_intact_and_closed [1, 2, 3] { data := [4, 5], closed := false } 2
    (by decide)

end CvmfsGateway
